import Mathlib

/-!
# Webhook dispatcher (`main.go`)

A shallow embedding of the HTTP handler `hook` of `main.go` and of the detached
goroutine it spawns to run the configured shell script under the global `mutex`.

Modelling conventions.

* A Go `string` is a Lean `String`, read as its list of characters.  The only
  searches the handler performs are for the ASCII texts `"/hooks"`, `"/"` and
  `" "`, and in UTF-8 an ASCII byte never occurs inside the encoding of another
  character, so searching by character and searching by byte select the same
  parts of a text.  The standard-library functions `strings.Contains`,
  `strings.LastIndex` and `strings.Trim` are written out from their documented
  behaviour; `Contains_iff`, `lastIndexList_split` and `Trim_eq_empty_iff` state
  that behaviour.
* `encoding/json` is not part of the program: the decoder is a parameter
  `unmarshal` of the handler, and what `json.NewEncoder(rw).Encode(&res)` writes
  is recorded as the `Response` value that was encoded.
* The `http.ResponseWriter` is the record `ResponseWriter` of what the handler
  wrote to it.  The loggers are recorded as a list of `LogLine`s; `Trace` writes
  to `ioutil.Discard` and is therefore not recorded.
  A failed write of the response (line 335) is only logged and is not modelled.
* The outcomes of `command.Start()` and `command.Wait()` are decided by the
  operating system and are inputs of the model (`StartResult`, `WaitResult`).
* Goroutines run interleaved, one statement group at a time (`Task.step`), under
  an arbitrary schedule (`World.run`); `mutex.Lock()` is a step that is enabled
  only while the mutex is free.  A request that arrives later is a goroutine that
  the schedule does not pick until then.
-/

namespace Webhooks

/-! ## The functions of package `strings` used by the handler -/

/-- Whether the character list `s` begins with `p` (`strings.HasPrefix`). -/
def hasPrefix : List Char → List Char → Bool
  | _, [] => true
  | [], _ :: _ => false
  | c :: s, d :: p => c == d && hasPrefix s p

/-- Index of the first instance of `sub` in `s` counted from offset `i`, or `-1`. -/
def indexFrom (sub : List Char) : List Char → Nat → Int
  | [], i => if hasPrefix [] sub then (i : Int) else -1
  | c :: t, i => if hasPrefix (c :: t) sub then (i : Int) else indexFrom sub t (i + 1)

/-- Go `strings.Index(s, substr)`: index of the first instance of `substr` in `s`,
or `-1` if `substr` is not present in `s`. -/
def Index (s substr : String) : Int := indexFrom substr.data s.data 0

/-- Go `strings.Contains(s, substr)`, which is `Index(s, substr) >= 0`. -/
def Contains (s substr : String) : Bool := decide (0 ≤ Index s substr)

/-- Index of the last instance of `sub` in the character list, or `-1`. -/
def lastIndexList (sub : List Char) : List Char → Int
  | [] => if hasPrefix [] sub then 0 else -1
  | c :: t =>
    let r := lastIndexList sub t
    if 0 ≤ r then r + 1
    else if hasPrefix (c :: t) sub then 0 else -1

/-- Go `strings.LastIndex(s, substr)`: index of the last instance of `substr` in
`s`, or `-1` if `substr` is not present in `s`. -/
def LastIndex (s substr : String) : Int := lastIndexList substr.data s.data

/-- Go slice expression `s[i:]`.  The handler only evaluates it at
`LastIndex(s, "/") + 1`, which lies in `0 .. len(s)` (lemma `lastIndex_succ_range`),
so the bounds check of the slice expression always passes. -/
def sliceFrom (s : String) (i : Int) : String := ⟨s.data.drop i.toNat⟩

/-- Removes the leading characters of `s` that occur in `cutset`. -/
def trimLeftList (cutset : List Char) (s : List Char) : List Char :=
  s.dropWhile (fun c => cutset.contains c)

/-- Removes the trailing characters of `s` that occur in `cutset`. -/
def trimRightList (cutset : List Char) (s : List Char) : List Char :=
  (trimLeftList cutset s.reverse).reverse

/-- Go `strings.Trim(s, cutset)`: `s` with all leading and trailing characters
contained in `cutset` removed. -/
def Trim (s cutset : String) : String :=
  ⟨trimRightList cutset.data (trimLeftList cutset.data s.data)⟩

/-! ## Data model -/

/-- The constant `PullRequestHookName`. -/
def PullRequestHookName : String := "merge_request_hooks"

/-- Type `Repo`; of its fields the handler reads only `FullName`. -/
structure Repo where
  FullName : String
deriving DecidableEq, Repr

/-- Type `Base`; of its fields the handler reads only `Repo`. -/
structure Base where
  Repo : Repo
deriving DecidableEq, Repr

/-- Type `PullRequest`; of its fields the handler reads only `Merged` and `Base`. -/
structure PullRequest where
  Merged : Bool
  Base : Base
deriving DecidableEq, Repr

/-- Type `HookStruct`; of its fields the handler reads only `HookName` and
`PullRequest`. -/
structure HookStruct where
  HookName : String
  PullRequest : PullRequest
deriving DecidableEq, Repr

/-- Type `Response`.  `Data` has type `interface{}`; `none` is `nil`, encoded as
JSON `null`. -/
structure Response where
  Code : Int
  Msg : String
  Data : Option String
deriving DecidableEq, Repr

/-- Function `NewResponseStruct`. -/
def NewResponseStruct (code : Int) (msg : String) (data : Option String) : Response :=
  { Code := code, Msg := msg, Data := data }

/-- The global `config map[string]string`, as its list of entries.  The empty
list is the map left by `init` when `config.yml` cannot be opened, read or parsed. -/
abbrev Registry := List (String × String)

/-- Map read `config[s]`: the value stored under `s`, or the zero value `""`. -/
def Registry.get (config : Registry) (s : String) : String :=
  match config.lookup s with
  | some v => v
  | none => ""

/-- The four loggers. -/
inductive Level where
  | Trace
  | Info
  | Warning
  | Error
deriving DecidableEq, Repr

/-- One line written by a logger. -/
structure LogLine where
  level : Level
  text : String
deriving DecidableEq, Repr

/-- The part of `*http.Request` the handler reads: the method, the text
`r.URL.String()`, and the result of `ioutil.ReadAll(r.Body)`. -/
structure Request where
  Method : String
  URL : String
  Body : List UInt8
  ReadErr : Option String
deriving DecidableEq, Repr

/-- What the handler did with its `http.ResponseWriter`: the header fields set,
the status passed to `WriteHeader`, and the values JSON-encoded into the body. -/
structure ResponseWriter where
  header : List (String × String)
  status : Option Nat
  body : List Response
deriving DecidableEq, Repr

/-- Everything a call of `hook` does: its writes to the `ResponseWriter`, the log
lines, the keys read from `config`, and the script path captured by each
goroutine started with `go func() ...`. -/
structure Outcome where
  rw : ResponseWriter
  log : List LogLine
  lookups : List String
  spawned : List String
deriving DecidableEq, Repr

/-- The payload built at line 277. -/
def successResponse : Response := NewResponseStruct 200 "请求成功" none

/-- The payload built at line 322. -/
def noScriptResponse : Response := NewResponseStruct 200 "hook运行失败, 未配置脚本" none

/-- The payload built at line 327. -/
def notMergedResponse : Response := NewResponseStruct 200 "hook运行失败, pr未合并" none

/-- The payload built at line 331. -/
def unsupportedResponse : Response := NewResponseStruct 200 "hook运行失败, 不支持的hook类型" none

/-- Lines 290-332 of `hook`: the dispatch decision for a decoded payload.  Returns
the value of `res` at line 334 together with the log lines, registry reads and
goroutines of this part. -/
def dispatch (config : Registry) (requestUrl : String) (hook : HookStruct) :
    Response × List LogLine × List String × List String :=
  if hook.HookName = PullRequestHookName then
    if hook.PullRequest.Merged then
      if Contains requestUrl "/hooks" then
        let index := LastIndex requestUrl "/"
        let s := sliceFrom requestUrl (index + 1)
        let shellPath := config.get s
        let info : LogLine :=
          ⟨Level.Info, "Receive hook request, project name is " ++
            hook.PullRequest.Base.Repo.FullName⟩
        if Trim shellPath " " ≠ "" then
          (successResponse, [info], [s], [shellPath])
        else
          (successResponse, [info], [s], [])
      else
        (noScriptResponse, [⟨Level.Error, "Hook not running, not script to run"⟩], [], [])
    else
      (notMergedResponse, [⟨Level.Error, "Hook not running, pull request not merge"⟩], [], [])
  else
    (unsupportedResponse,
      [⟨Level.Error, "Hook not running, not support hook type: " ++ hook.HookName⟩], [], [])

/-- Function `hook`, the handler of every request. -/
def hook (unmarshal : List UInt8 → Except String HookStruct) (config : Registry)
    (r : Request) : Outcome :=
  if r.Method = "GET" then
    { rw := { header := [], status := none, body := [] }
      log := [⟨Level.Error, "IGNORE GET REQUEST"⟩]
      lookups := []
      spawned := [] }
  else
    let header := [("Content-Type", "application/json")]
    let readLog : List LogLine :=
      match r.ReadErr with
      | some e => [⟨Level.Error, "Read body error: " ++ e⟩]
      | none => []
    match unmarshal r.Body with
    | Except.error e =>
      { rw := { header := header, status := some 200, body := [] }
        log := readLog ++ [⟨Level.Error, "Unmarshal body error: " ++ e⟩]
        lookups := []
        spawned := [] }
    | Except.ok h =>
      let d := dispatch config r.URL h
      { rw := { header := header, status := some 200, body := [d.1] }
        log := readLog ++ d.2.1
        lookups := d.2.2.1
        spawned := d.2.2.2 }

/-! ## The detached goroutine (lines 300-317) and the global `mutex` -/

/-- Type `os.Process`, of which the goroutine reads `Pid`. -/
structure Process where
  Pid : Int
deriving DecidableEq, Repr

/-- Type `os.ProcessState`, of which the goroutine reads `Pid()`. -/
structure ProcessState where
  pid : Int
deriving DecidableEq, Repr

/-- Type `exec.Cmd`.  `Process` is `nil` until `Start` succeeds and `ProcessState`
is `nil` until `Wait` has collected the exit status of the process. -/
structure Cmd where
  Path : String
  Args : List String
  Process : Option Process
  ProcessState : Option ProcessState
deriving DecidableEq, Repr

/-- Go `exec.Command(name, arg...)` for a `name` that contains a path separator:
`Path` is `name` and `Args` is `name` followed by the arguments. -/
def Command (name : String) (arg : List String) : Cmd :=
  { Path := name, Args := name :: arg, Process := none, ProcessState := none }

/-- What the operating system answers to `command.Start()`. -/
inductive StartResult where
  | started (pid : Int)
  | failed (err : String)
deriving DecidableEq, Repr

/-- What the operating system answers to `command.Wait()` on a started command:
the process has exited (`err` is `none` for exit status 0 and the `ExitError`
text otherwise), or waiting itself failed and no exit status was collected. -/
inductive WaitResult where
  | exited (err : Option String)
  | failed (err : String)
deriving DecidableEq, Repr

/-- The answers of the environment to one run of the goroutine; `cost` is the text
of `endTime.Sub(startTime)`. -/
structure OS where
  start : StartResult
  wait : WaitResult
  cost : String
deriving DecidableEq, Repr

/-- Go `(*Cmd).Start`: on success `Process` is set, on failure it stays `nil`. -/
def Cmd.Start (c : Cmd) (r : StartResult) : Cmd × Option String :=
  match r with
  | StartResult.started pid => ({ c with Process := some ⟨pid⟩ }, none)
  | StartResult.failed err => (c, some err)

/-- Go `(*Cmd).Wait`: fails with "exec: not started" when `Process` is `nil`;
otherwise waits for the process and sets `ProcessState` when it has exited. -/
def Cmd.Wait (c : Cmd) (r : WaitResult) : Cmd × Option String :=
  match c.Process with
  | none => (c, some "exec: not started")
  | some p =>
    match r with
    | WaitResult.exited err => ({ c with ProcessState := some ⟨p.Pid⟩ }, err)
    | WaitResult.failed err => (c, some err)

/-- What a goroutine does that is visible outside it. -/
inductive Event where
  | lock
  | start (path : String) (args : List String)
  | wait
  | unlock
  | log (line : LogLine)
  | panic
deriving DecidableEq, Repr

/-- Program points of the goroutine body: the statement it executes next. -/
inductive PC where
  | atLock
  | atStart
  | atPid
  | atWait
  | atStatePid
  | atUnlock
  | done
  | panicked
deriving DecidableEq, Repr

/-- One detached goroutine: its program point, the captured `shellPath`, the local
`command` (absent before line 303) and what it has done so far. -/
structure Task where
  pc : PC
  shellPath : String
  command : Option Cmd
  trace : List Event
deriving DecidableEq, Repr

/-- The goroutine as created by `go func() ...` at line 300. -/
def Task.init (shellPath : String) : Task :=
  { pc := PC.atLock, shellPath := shellPath, command := none, trace := [] }

/-- The log line of `Error.Println(text, err)` when `err != nil`. -/
def errLog (text : String) (err : Option String) : List Event :=
  match err with
  | some e => [Event.log ⟨Level.Error, text ++ " " ++ e⟩]
  | none => []

/-- One step of a goroutine, given the state of `mutex` (`true` is locked).
Returns the goroutine after the step and the new state of `mutex`, or `none`
when it cannot move: blocked in `mutex.Lock()`, finished, or dead.

* `atLock`: line 301, `mutex.Lock()`;
* `atStart`: lines 302-307, `exec.Command`, `command.Start()` and the error log;
* `atPid`: line 309, which reads `command.Process.Pid` and panics on a `nil`
  `command.Process`;
* `atWait`: lines 310-313, `command.Wait()` and the error log;
* `atStatePid`: lines 314-315, which calls `command.ProcessState.Pid()` and
  panics on a `nil` `command.ProcessState`;
* `atUnlock`: line 316, `mutex.Unlock()`. -/
def Task.step (t : Task) (mutex : Bool) (os : OS) : Option (Task × Bool) :=
  match t.pc with
  | PC.atLock =>
    if mutex then none
    else some ({ t with pc := PC.atStart, trace := t.trace ++ [Event.lock] }, true)
  | PC.atStart =>
    let command := Command "/bin/bash" [t.shellPath]
    let r := command.Start os.start
    some ({ t with
            pc := PC.atPid
            command := some r.1
            trace := t.trace ++ [Event.start command.Path command.Args] ++
              errLog "Start execute shell failed" r.2 }, mutex)
  | PC.atPid =>
    match t.command.bind Cmd.Process with
    | none => some ({ t with pc := PC.panicked, trace := t.trace ++ [Event.panic] }, mutex)
    | some p =>
      some ({ t with
              pc := PC.atWait
              trace := t.trace ++ [Event.log ⟨Level.Info,
                "Start execute the shell, Process Pid: " ++ toString p.Pid⟩] }, mutex)
  | PC.atWait =>
    match t.command with
    | none => some ({ t with pc := PC.panicked, trace := t.trace ++ [Event.panic] }, mutex)
    | some command =>
      let r := command.Wait os.wait
      some ({ t with
              pc := PC.atStatePid
              command := some r.1
              trace := t.trace ++ [Event.wait] ++ errLog "Execute shell error:" r.2 }, mutex)
  | PC.atStatePid =>
    match t.command.bind Cmd.ProcessState with
    | none => some ({ t with pc := PC.panicked, trace := t.trace ++ [Event.panic] }, mutex)
    | some st =>
      some ({ t with
              pc := PC.atUnlock
              trace := t.trace ++ [Event.log ⟨Level.Info,
                "Process execute success, PID:" ++ toString st.pid ++ ", cost:" ++ os.cost⟩] },
            mutex)
  | PC.atUnlock =>
    some ({ t with pc := PC.done, trace := t.trace ++ [Event.unlock] }, false)
  | PC.done => none
  | PC.panicked => none

/-- Runs a goroutine for at most `fuel` steps, stopping when it cannot move. -/
def Task.exec (os : OS) : Nat → Task × Bool → Task × Bool
  | 0, s => s
  | fuel + 1, s =>
    match s.1.step s.2 os with
    | none => s
    | some s' => Task.exec os fuel s'

/-- The goroutine run on its own from a free `mutex`: the goroutine at its end
and the final state of `mutex`.  The body has six statements, so six steps are
enough (`runScript_stops`). -/
def runScript (os : OS) (shellPath : String) : Task × Bool :=
  Task.exec os 6 (Task.init shellPath, false)

/-- The commands on which the goroutine called `Start`, in order. -/
def starts : List Event → List (String × List String)
  | [] => []
  | Event.start path args :: es => (path, args) :: starts es
  | _ :: es => starts es

/-- The server process with its detached goroutines: the global `mutex` and the
goroutines started so far. -/
structure World where
  mutex : Bool
  tasks : List Task
deriving DecidableEq, Repr

/-- Whether some goroutine has panicked: an unrecovered panic in any goroutine
terminates the whole process. -/
def World.crashed (w : World) : Bool := w.tasks.any (fun t => t.pc == PC.panicked)

/-- The scheduler lets goroutine `i` take its next step.  Nothing happens when
there is no such goroutine or when it cannot move.  A panic ends the process,
but until the runtime has torn the process down the other goroutines may still
move, so they are not stopped here: the model allows every behaviour of the
dying process and more. -/
def World.step (w : World) (i : Nat) (os : OS) : World :=
  match w.tasks[i]? with
  | none => w
  | some t =>
    match t.step w.mutex os with
    | none => w
    | some r => { mutex := r.2, tasks := w.tasks.set i r.1 }

/-- Runs a schedule: a list of goroutine indices, each with the answers of the
environment for that step. -/
def World.run (w : World) : List (Nat × OS) → World
  | [] => w
  | (i, os) :: rest => (w.step i os).run rest

/-- The server right after the goroutines for `shellPaths` were started. -/
def World.init (shellPaths : List String) : World :=
  { mutex := false, tasks := shellPaths.map Task.init }

/-- The goroutine's subprocess is running: `Start` has succeeded and `Wait` has
not yet collected its exit. -/
def Task.childRunning (t : Task) : Bool :=
  match t.command with
  | none => false
  | some c => c.Process.isSome && c.ProcessState.isNone

/-- The goroutine is between `mutex.Lock()` and `mutex.Unlock()`. -/
def Task.holdsLock (t : Task) : Bool :=
  match t.pc with
  | PC.atLock => false
  | PC.done => false
  | _ => true

/-! ## Vocabulary of the specification and sample inputs -/

/-- A script path is blank when it is empty or composed only of whitespace
characters (space, tab, carriage return, newline). -/
def isBlank (p : String) : Bool := p.data.all Char.isWhitespace

/-- A payload of a merged pull request. -/
def mergedHook : HookStruct :=
  { HookName := "merge_request_hooks"
    PullRequest := { Merged := true, Base := { Repo := { FullName := "team/site" } } } }

/-- A payload of a pull request that is still open. -/
def openHook : HookStruct :=
  { HookName := "merge_request_hooks"
    PullRequest := { Merged := false, Base := { Repo := { FullName := "team/site" } } } }

/-- A payload of another hook type, here a push. -/
def pushHook : HookStruct :=
  { HookName := "push_hooks"
    PullRequest := { Merged := true, Base := { Repo := { FullName := "team/site" } } } }

/-- A decoder used in the examples: three one-byte bodies stand for the three
sample payloads and every other body is rejected. -/
def sampleUnmarshal (body : List UInt8) : Except String HookStruct :=
  if body = [1] then Except.ok mergedHook
  else if body = [2] then Except.ok openHook
  else if body = [3] then Except.ok pushHook
  else Except.error "unexpected end of JSON input"

/-- A request with method `POST`, the given URL text and body, read without error. -/
def post (url : String) (body : List UInt8) : Request :=
  { Method := "POST", URL := url, Body := body, ReadErr := none }

/-- Answers of the environment for a script that starts and exits with status 0. -/
def osOk : OS :=
  { start := StartResult.started 4242, wait := WaitResult.exited none, cost := "1.5s" }

/-- Answers of the environment when `/bin/bash` cannot be started. -/
def osStartFails : OS :=
  { start := StartResult.failed "fork/exec /bin/bash: no such file or directory"
    wait := WaitResult.exited none
    cost := "0s" }

/-- What holds of a goroutine at each program point: it has no `command` before
line 303, and once it has passed line 315 its subprocess has been waited for. -/
def Task.ok (t : Task) : Prop :=
  match t.pc with
  | PC.atLock => t.command = none
  | PC.atStart => t.command = none
  | PC.atUnlock => t.childRunning = false
  | PC.done => t.childRunning = false
  | _ => True

/-- The invariant of the running server: every goroutine satisfies `Task.ok`, at
most one goroutine is between `Lock` and `Unlock`, and none is while `mutex` is
free. -/
structure World.Inv (w : World) : Prop where
  ok : ∀ t ∈ w.tasks, t.ok
  unique : ∀ (i j : Nat) (ti tj : Task), w.tasks[i]? = some ti → w.tasks[j]? = some tj →
    ti.holdsLock = true → tj.holdsLock = true → i = j
  free : w.mutex = false → ∀ t ∈ w.tasks, t.holdsLock = false

/-- What a goroutine has launched at each program point: before its `Start` it
has called `Start` on nothing and has no `command`; afterwards it has called
`Start` exactly once, on "/bin/bash" with its `shellPath` as only argument, and
that is its `command`. -/
def Task.launchOk (t : Task) : Prop :=
  match t.pc with
  | PC.atLock => starts t.trace = [] ∧ t.command = none
  | PC.atStart => starts t.trace = [] ∧ t.command = none
  | _ =>
    starts t.trace = [("/bin/bash", ["/bin/bash", t.shellPath])] ∧
    ∃ c : Cmd, t.command = some c ∧ c.Path = "/bin/bash" ∧ c.Args = ["/bin/bash", t.shellPath]

/-! ## Facts about the string functions -/


theorem hasPrefix_iff (s p : List Char) : hasPrefix s p = true ↔ p <+: s := by
  induction s generalizing p with
  | nil => cases p <;> simp [hasPrefix]
  | cons c t ih =>
    cases p with
    | nil => simp [hasPrefix]
    | cons d q =>
      simp only [hasPrefix, Bool.and_eq_true, beq_iff_eq, ih, List.cons_prefix_cons]
      constructor
      · rintro ⟨h1, h2⟩; exact ⟨h1.symm, h2⟩
      · rintro ⟨h1, h2⟩; exact ⟨h1.symm, h2⟩

theorem indexFrom_nonneg_iff (sub s : List Char) (i : Nat) :
    0 ≤ indexFrom sub s i ↔ sub <:+: s := by
  induction s generalizing i with
  | nil =>
    simp only [indexFrom]
    split
    · rename_i h
      rw [hasPrefix_iff] at h
      simp [List.prefix_nil.mp h]
    · rename_i h
      rw [hasPrefix_iff] at h
      simp only [List.prefix_nil] at h
      simp [h]
  | cons c t ih =>
    simp only [indexFrom]
    split
    · rename_i h
      rw [hasPrefix_iff] at h
      simp [h.isInfix]
    · rename_i h
      rw [hasPrefix_iff] at h
      rw [ih, List.infix_cons_iff]
      simp [h]

/-- `Contains s substr` holds exactly when `substr` occurs in `s` as a contiguous
part. -/
theorem Contains_iff (s substr : String) :
    Contains s substr = true ↔ substr.data <:+: s.data := by
  simp [Contains, Index, indexFrom_nonneg_iff]

theorem lastIndexList_not_mem (a : Char) (k : List Char) (h : a ∉ k) :
    lastIndexList [a] k = -1 := by
  induction k with
  | nil => simp [lastIndexList, hasPrefix]
  | cons c t ih =>
    simp only [List.mem_cons, not_or] at h
    simp [lastIndexList, ih h.2, hasPrefix, Ne.symm h.1]

theorem lastIndexList_split (a : Char) (pre k : List Char) (h : a ∉ k) :
    lastIndexList [a] (pre ++ a :: k) = pre.length := by
  induction pre with
  | nil => simp [lastIndexList, lastIndexList_not_mem a k h, hasPrefix]
  | cons c t ih =>
    simp only [List.cons_append, lastIndexList, ih, List.length_cons]
    simp
    omega

theorem lastIndexList_range (sub s : List Char) (hsub : sub ≠ []) :
    -1 ≤ lastIndexList sub s ∧ lastIndexList sub s < s.length := by
  induction s with
  | nil =>
    cases sub with
    | nil => exact absurd rfl hsub
    | cons d q => simp [lastIndexList, hasPrefix]
  | cons c t ih =>
    simp only [lastIndexList, List.length_cons]
    split
    · constructor <;> push_cast <;> omega
    · split <;> constructor <;> push_cast <;> omega

/-- The slice bound `LastIndex(s, "/") + 1` is always within `0 .. len(s)`. -/
theorem lastIndex_succ_range (s : String) :
    0 ≤ LastIndex s "/" + 1 ∧ LastIndex s "/" + 1 ≤ s.data.length := by
  have h := lastIndexList_range "/".data s.data (by decide)
  unfold LastIndex
  omega

/-- The key computed at lines 294-295 is the text after the last "/". -/
theorem key_after_last_slash (url key : String) (pre : List Char)
    (hsplit : url.data = pre ++ '/' :: key.data) (hlast : '/' ∉ key.data) :
    sliceFrom url (LastIndex url "/" + 1) = key := by
  have h : LastIndex url "/" = pre.length := by
    unfold LastIndex
    rw [hsplit]
    exact lastIndexList_split '/' pre key.data hlast
  simp [sliceFrom, h, hsplit]


theorem trimLeftList_eq_nil_iff (cs s : List Char) :
    trimLeftList cs s = [] ↔ ∀ c ∈ s, c ∈ cs := by
  simp [trimLeftList, List.dropWhile_eq_nil_iff]

theorem trimRightList_eq_nil_iff (cs s : List Char) :
    trimRightList cs s = [] ↔ ∀ c ∈ s, c ∈ cs := by
  simp [trimRightList, trimLeftList_eq_nil_iff]

theorem trimLeftList_mem_of_all (cs s : List Char)
    (h : ∀ c ∈ trimLeftList cs s, c ∈ cs) : trimLeftList cs s = [] := by
  induction s with
  | nil => simp [trimLeftList]
  | cons a t ih =>
    unfold trimLeftList at h ih ⊢
    by_cases ha : a ∈ cs
    · have e : List.dropWhile (fun c => cs.contains c) (a :: t)
          = List.dropWhile (fun c => cs.contains c) t := by
        simp [List.dropWhile_cons, ha]
      rw [e] at h ⊢
      exact ih h
    · have e : List.dropWhile (fun c => cs.contains c) (a :: t) = a :: t := by
        simp [List.dropWhile_cons, ha]
      rw [e] at h
      exact absurd (h a (List.mem_cons_self a t)) ha

/-- Trimming leaves nothing exactly when every character is in the cutset. -/
theorem Trim_eq_empty_iff (s cutset : String) :
    Trim s cutset = "" ↔ ∀ c ∈ s.data, c ∈ cutset.data := by
  have hmk : ∀ l : List Char, (String.mk l = "") ↔ l = [] := by
    intro l
    constructor
    · intro h; exact congrArg String.data h
    · intro h; rw [h]
  unfold Trim
  rw [hmk, trimRightList_eq_nil_iff]
  constructor
  · intro h
    exact (trimLeftList_eq_nil_iff _ _).mp (trimLeftList_mem_of_all _ _ h)
  · intro h
    rw [(trimLeftList_eq_nil_iff _ _).mpr h]
    simp

theorem Trim_space_eq_empty_iff (s : String) :
    Trim s " " = "" ↔ ∀ c ∈ s.data, c = ' ' := by
  rw [Trim_eq_empty_iff]
  simp

theorem exists_last_split (a : Char) (l : List Char) (h : a ∈ l) :
    ∃ pre k : List Char, l = pre ++ a :: k ∧ a ∉ k := by
  obtain ⟨as, bs, hsplit, hnot⟩ := List.eq_append_cons_of_mem (List.mem_reverse.mpr h)
  refine ⟨bs.reverse, as.reverse, ?_, by simpa using hnot⟩
  have := congrArg List.reverse hsplit
  simpa using this

theorem slash_mem_of_hooks (l : List Char) (h : "/hooks".data <:+: l) : '/' ∈ l := by
  obtain ⟨s, t, rfl⟩ := h
  simp

/-! ## The handler -/

theorem isBlank_false_not_spaces (p : String) (h : isBlank p = false) :
    ¬ ∀ c ∈ p.data, c = ' ' := by
  intro hall
  have : isBlank p = true := by
    unfold isBlank
    rw [List.all_eq_true]
    intro c hc
    rw [hall c hc]
    rfl
  rw [h] at this
  exact Bool.false_ne_true this

theorem Registry.get_of_lookup (config : Registry) (key p : String)
    (h : config.lookup key = some p) : config.get key = p := by
  simp [Registry.get, h]

theorem Registry.get_of_lookup_none (config : Registry) (key : String)
    (h : config.lookup key = none) : config.get key = "" := by
  simp [Registry.get, h]

theorem starts_runScript (os : OS) (p : String) :
    starts (runScript os p).1.trace = [("/bin/bash", ["/bin/bash", p])] := by
  rcases os with ⟨st, wt, cost⟩
  cases st <;> rcases wt with ⟨_ | e⟩ | e <;> rfl

/-- C4: a non-GET request whose body decodes to a payload with a `hook_name` other
than "merge_request_hooks" is answered with the "unsupported hook type" message,
and no goroutine (hence no subprocess) is started, whatever `merged`, the URL and
the registry are. -/
theorem unsupported_hook_type
    (unmarshal : List UInt8 → Except String HookStruct) (config : Registry) (r : Request)
    (h : HookStruct)
    (hmethod : r.Method ≠ "GET")
    (hdecode : unmarshal r.Body = Except.ok h)
    (hname : h.HookName ≠ "merge_request_hooks") :
    (hook unmarshal config r).rw.body
      = [{ Code := 200, Msg := "hook运行失败, 不支持的hook类型", Data := none }] ∧
    (hook unmarshal config r).spawned = [] := by
  constructor <;>
    simp [hook, dispatch, hmethod, hdecode, hname, PullRequestHookName, unsupportedResponse,
      NewResponseStruct]

theorem unsupported_hook_type_witness :
    (post "/hooks/site" [3]).Method ≠ "GET" ∧
    sampleUnmarshal (post "/hooks/site" [3]).Body = Except.ok pushHook ∧
    pushHook.HookName ≠ "merge_request_hooks" ∧
    (hook sampleUnmarshal [("site", "/opt/deploy.sh")] (post "/hooks/site" [3])).rw.body
      = [{ Code := 200, Msg := "hook运行失败, 不支持的hook类型", Data := none }] ∧
    (hook sampleUnmarshal [("site", "/opt/deploy.sh")] (post "/hooks/site" [3])).spawned = [] :=
  ⟨by decide, rfl, by decide,
    unsupported_hook_type sampleUnmarshal [("site", "/opt/deploy.sh")] (post "/hooks/site" [3])
      pushHook (by decide) rfl (by decide)⟩

/-- C5: a non-GET request whose body decodes to a payload with `hook_name`
"merge_request_hooks" and `merged = false` is answered with the "not merged"
message, and no goroutine (hence no subprocess) is started, whatever the URL and
the registry are. -/
theorem not_merged
    (unmarshal : List UInt8 → Except String HookStruct) (config : Registry) (r : Request)
    (h : HookStruct)
    (hmethod : r.Method ≠ "GET")
    (hdecode : unmarshal r.Body = Except.ok h)
    (hname : h.HookName = "merge_request_hooks")
    (hmerged : h.PullRequest.Merged = false) :
    (hook unmarshal config r).rw.body
      = [{ Code := 200, Msg := "hook运行失败, pr未合并", Data := none }] ∧
    (hook unmarshal config r).spawned = [] := by
  constructor <;>
    simp [hook, dispatch, hmethod, hdecode, hname, hmerged, PullRequestHookName,
      notMergedResponse, NewResponseStruct]

theorem not_merged_witness :
    (post "/hooks/site" [2]).Method ≠ "GET" ∧
    sampleUnmarshal (post "/hooks/site" [2]).Body = Except.ok openHook ∧
    (hook sampleUnmarshal [("site", "/opt/deploy.sh")] (post "/hooks/site" [2])).rw.body
      = [{ Code := 200, Msg := "hook运行失败, pr未合并", Data := none }] ∧
    (hook sampleUnmarshal [("site", "/opt/deploy.sh")] (post "/hooks/site" [2])).spawned = [] :=
  ⟨by decide, rfl,
    not_merged sampleUnmarshal [("site", "/opt/deploy.sh")] (post "/hooks/site" [2])
      openHook (by decide) rfl rfl rfl⟩

/-- C6: a request with method GET gets no response body (nothing at all is written
to the response writer) and starts no goroutine, whatever its body, its URL, the
decoder and the registry are. -/
theorem get_is_ignored
    (unmarshal : List UInt8 → Except String HookStruct) (config : Registry) (r : Request)
    (hmethod : r.Method = "GET") :
    (hook unmarshal config r).rw.body = [] ∧
    (hook unmarshal config r).rw.status = none ∧
    (hook unmarshal config r).rw.header = [] ∧
    (hook unmarshal config r).spawned = [] := by
  simp [hook, hmethod]

theorem get_is_ignored_witness :
    ({ Method := "GET", URL := "/hooks/site", Body := [1], ReadErr := none } : Request).Method
      = "GET" ∧
    (hook sampleUnmarshal [("site", "/opt/deploy.sh")]
      { Method := "GET", URL := "/hooks/site", Body := [1], ReadErr := none }).rw.body = [] ∧
    (hook sampleUnmarshal [("site", "/opt/deploy.sh")]
      { Method := "GET", URL := "/hooks/site", Body := [1], ReadErr := none }).rw.status = none ∧
    (hook sampleUnmarshal [("site", "/opt/deploy.sh")]
      { Method := "GET", URL := "/hooks/site", Body := [1], ReadErr := none }).rw.header = [] ∧
    (hook sampleUnmarshal [("site", "/opt/deploy.sh")]
      { Method := "GET", URL := "/hooks/site", Body := [1], ReadErr := none }).spawned = [] :=
  ⟨rfl, get_is_ignored sampleUnmarshal [("site", "/opt/deploy.sh")]
    { Method := "GET", URL := "/hooks/site", Body := [1], ReadErr := none } rfl⟩

/-- C7, as the code has it: for a non-GET request with recognized `hook_name`,
`merged = true` and a URL text containing "/hooks", whose key is absent from the
registry or maps to a script path that is empty or composed only of space
characters, no goroutine (hence no subprocess) is started and the response body
stays the generic success payload. -/
theorem absent_or_spaces_script_not_launched
    (unmarshal : List UInt8 → Except String HookStruct) (config : Registry) (r : Request)
    (h : HookStruct) (pre : List Char) (key : String)
    (hmethod : r.Method ≠ "GET")
    (hdecode : unmarshal r.Body = Except.ok h)
    (hname : h.HookName = "merge_request_hooks")
    (hmerged : h.PullRequest.Merged = true)
    (hurl : "/hooks".data <:+: r.URL.data)
    (hkey : r.URL.data = pre ++ '/' :: key.data) (hlast : '/' ∉ key.data)
    (hreg : config.lookup key = none ∨
      ∃ p : String, config.lookup key = some p ∧ ∀ c ∈ p.data, c = ' ') :
    (hook unmarshal config r).spawned = [] ∧
    (hook unmarshal config r).rw.body = [{ Code := 200, Msg := "请求成功", Data := none }] := by
  have hc : Contains r.URL "/hooks" = true := (Contains_iff _ _).mpr hurl
  have hk : sliceFrom r.URL (LastIndex r.URL "/" + 1) = key :=
    key_after_last_slash r.URL key pre hkey hlast
  have ht : Trim (config.get key) " " = "" := by
    rcases hreg with hnone | ⟨p, hp, hsp⟩
    · rw [Registry.get_of_lookup_none config key hnone]
      rfl
    · rw [Registry.get_of_lookup config key p hp]
      exact (Trim_space_eq_empty_iff p).mpr hsp
  constructor
  · simp [hook, dispatch, hmethod, hdecode, hname, hmerged, hc, hk, ht, PullRequestHookName]
  · simp [hook, dispatch, hmethod, hdecode, hname, hmerged, hc, hk, ht, PullRequestHookName,
      successResponse, NewResponseStruct]

theorem absent_or_spaces_script_not_launched_witness :
    (post "/hooks/site" [1]).Method ≠ "GET" ∧
    sampleUnmarshal (post "/hooks/site" [1]).Body = Except.ok mergedHook ∧
    List.lookup "site" [("site", "   ")] = some "   " ∧
    (hook sampleUnmarshal [("site", "   ")] (post "/hooks/site" [1])).spawned = [] ∧
    (hook sampleUnmarshal [("site", "   ")] (post "/hooks/site" [1])).rw.body
      = [{ Code := 200, Msg := "请求成功", Data := none }] :=
  ⟨by decide, rfl, rfl,
    absent_or_spaces_script_not_launched sampleUnmarshal [("site", "   ")]
      (post "/hooks/site" [1]) mergedHook "/hooks".data "site"
      (by decide) rfl rfl rfl ⟨[], "/site".data, rfl⟩ rfl (by decide)
      (Or.inr ⟨"   ", rfl, by decide⟩)⟩

/-- C7 as stated fails: a registry value made of one tab is whitespace only, and
yet a goroutine is started for it, which calls `Start` on "/bin/bash" with the
tab as argument. -/
theorem tab_script_path_is_launched :
    (post "/hooks/site" [1]).Method ≠ "GET" ∧
    sampleUnmarshal (post "/hooks/site" [1]).Body = Except.ok mergedHook ∧
    mergedHook.HookName = "merge_request_hooks" ∧
    mergedHook.PullRequest.Merged = true ∧
    "/hooks".data <:+: (post "/hooks/site" [1]).URL.data ∧
    List.lookup "site" [("site", "\t")] = some "\t" ∧
    isBlank "\t" = true ∧
    (hook sampleUnmarshal [("site", "\t")] (post "/hooks/site" [1])).spawned = ["\t"] ∧
    starts (runScript osOk "\t").1.trace = [("/bin/bash", ["/bin/bash", "\t"])] :=
  ⟨by decide, rfl, rfl, rfl, ⟨[], "/site".data, rfl⟩, rfl, by decide, by decide, by decide⟩

/-- C8, as the code has it: when the body of a non-GET request fails to decode, no
goroutine (hence no subprocess) is started and the registry is not read; status
200 and the JSON content type have been sent, the decode error is logged, and no
response body is written. -/
theorem decode_failure_sends_no_body
    (unmarshal : List UInt8 → Except String HookStruct) (config : Registry) (r : Request)
    (e : String)
    (hmethod : r.Method ≠ "GET")
    (hdecode : unmarshal r.Body = Except.error e) :
    (hook unmarshal config r).spawned = [] ∧
    (hook unmarshal config r).lookups = [] ∧
    (hook unmarshal config r).rw.status = some 200 ∧
    (hook unmarshal config r).rw.header = [("Content-Type", "application/json")] ∧
    (hook unmarshal config r).rw.body = [] ∧
    ({ level := Level.Error, text := "Unmarshal body error: " ++ e } : LogLine)
      ∈ (hook unmarshal config r).log := by
  simp [hook, hmethod, hdecode]

theorem decode_failure_sends_no_body_witness :
    (post "/hooks/site" [0]).Method ≠ "GET" ∧
    sampleUnmarshal (post "/hooks/site" [0]).Body
      = Except.error "unexpected end of JSON input" ∧
    (hook sampleUnmarshal [("site", "/opt/deploy.sh")] (post "/hooks/site" [0])).spawned = [] ∧
    (hook sampleUnmarshal [("site", "/opt/deploy.sh")] (post "/hooks/site" [0])).lookups = [] ∧
    (hook sampleUnmarshal [("site", "/opt/deploy.sh")] (post "/hooks/site" [0])).rw.status
      = some 200 ∧
    (hook sampleUnmarshal [("site", "/opt/deploy.sh")] (post "/hooks/site" [0])).rw.header
      = [("Content-Type", "application/json")] ∧
    (hook sampleUnmarshal [("site", "/opt/deploy.sh")] (post "/hooks/site" [0])).rw.body = [] ∧
    ({ level := Level.Error, text := "Unmarshal body error: " ++ "unexpected end of JSON input" }
      : LogLine) ∈
      (hook sampleUnmarshal [("site", "/opt/deploy.sh")] (post "/hooks/site" [0])).log :=
  ⟨by decide, rfl,
    decode_failure_sends_no_body sampleUnmarshal [("site", "/opt/deploy.sh")]
      (post "/hooks/site" [0]) "unexpected end of JSON input" (by decide) rfl⟩

/-- C8 as stated fails: for a body that does not decode, the response body is
empty and so is not the generic success payload. -/
theorem decode_failure_body_is_not_success :
    (post "/hooks/site" [0]).Method ≠ "GET" ∧
    sampleUnmarshal (post "/hooks/site" [0]).Body
      = Except.error "unexpected end of JSON input" ∧
    (hook sampleUnmarshal [("site", "/opt/deploy.sh")] (post "/hooks/site" [0])).rw.body = [] ∧
    (hook sampleUnmarshal [("site", "/opt/deploy.sh")] (post "/hooks/site" [0])).rw.body
      ≠ [{ Code := 200, Msg := "请求成功", Data := none }] :=
  ⟨by decide, rfl, by decide, by decide⟩

/-- C9, as the code has it: with an empty registry, a non-GET request with a
decodable body, recognized `hook_name` and `merged = true` starts no goroutine
(hence no subprocess); its response is the "no script configured" payload when
the URL text does not contain "/hooks", and the generic success payload when it
does. -/
theorem empty_registry_launches_nothing
    (unmarshal : List UInt8 → Except String HookStruct) (config : Registry) (r : Request)
    (h : HookStruct)
    (hconfig : config = [])
    (hmethod : r.Method ≠ "GET")
    (hdecode : unmarshal r.Body = Except.ok h)
    (hname : h.HookName = "merge_request_hooks")
    (hmerged : h.PullRequest.Merged = true) :
    (hook unmarshal config r).spawned = [] ∧
    (¬ "/hooks".data <:+: r.URL.data →
      (hook unmarshal config r).rw.body
        = [{ Code := 200, Msg := "hook运行失败, 未配置脚本", Data := none }]) ∧
    ("/hooks".data <:+: r.URL.data →
      (hook unmarshal config r).rw.body
        = [{ Code := 200, Msg := "请求成功", Data := none }]) := by
  subst hconfig
  have hg : ∀ s : String, Trim (Registry.get [] s) " " = "" := fun s => rfl
  by_cases hurl : "/hooks".data <:+: r.URL.data
  · have hc : Contains r.URL "/hooks" = true := (Contains_iff _ _).mpr hurl
    simp [hook, dispatch, hmethod, hdecode, hname, hmerged, hc, hg, hurl, PullRequestHookName,
      successResponse, NewResponseStruct]
  · have hc : Contains r.URL "/hooks" = false := by
      rw [← Bool.not_eq_true, Contains_iff]
      exact hurl
    simp [hook, dispatch, hmethod, hdecode, hname, hmerged, hc, hurl, PullRequestHookName,
      noScriptResponse, NewResponseStruct]

theorem empty_registry_launches_nothing_witness :
    (post "/deploy/site" [1]).Method ≠ "GET" ∧
    sampleUnmarshal (post "/deploy/site" [1]).Body = Except.ok mergedHook ∧
    (hook sampleUnmarshal [] (post "/deploy/site" [1])).spawned = [] ∧
    (¬ "/hooks".data <:+: (post "/deploy/site" [1]).URL.data →
      (hook sampleUnmarshal [] (post "/deploy/site" [1])).rw.body
        = [{ Code := 200, Msg := "hook运行失败, 未配置脚本", Data := none }]) ∧
    ("/hooks".data <:+: (post "/deploy/site" [1]).URL.data →
      (hook sampleUnmarshal [] (post "/deploy/site" [1])).rw.body
        = [{ Code := 200, Msg := "请求成功", Data := none }]) :=
  ⟨by decide, rfl,
    empty_registry_launches_nothing sampleUnmarshal [] (post "/deploy/site" [1]) mergedHook
      rfl (by decide) rfl rfl rfl⟩

/-- C9 as stated fails: with an empty registry, a dispatch-eligible request whose
URL contains "/hooks" gets the generic success message, not the "no script
configured" message. -/
theorem empty_registry_hooks_url_gets_success :
    (post "/hooks/site" [1]).Method ≠ "GET" ∧
    sampleUnmarshal (post "/hooks/site" [1]).Body = Except.ok mergedHook ∧
    mergedHook.HookName = "merge_request_hooks" ∧
    mergedHook.PullRequest.Merged = true ∧
    (hook sampleUnmarshal [] (post "/hooks/site" [1])).rw.body
      = [{ Code := 200, Msg := "请求成功", Data := none }] ∧
    (hook sampleUnmarshal [] (post "/hooks/site" [1])).rw.body
      ≠ [{ Code := 200, Msg := "hook运行失败, 未配置脚本", Data := none }] :=
  ⟨by decide, rfl, rfl, rfl, by decide, by decide⟩

/-- C10: for a non-GET request with a decodable body, recognized `hook_name` and
`merged = true`: if the URL text does not contain "/hooks", the registry is not
read, no goroutine (hence no subprocess) is started and the response is the "no
script configured" payload; if "/hooks" occurs anywhere in the URL text, the
registry is read exactly once, at the text after the last "/". -/
theorem hooks_substring_gate
    (unmarshal : List UInt8 → Except String HookStruct) (config : Registry) (r : Request)
    (h : HookStruct)
    (hmethod : r.Method ≠ "GET")
    (hdecode : unmarshal r.Body = Except.ok h)
    (hname : h.HookName = "merge_request_hooks")
    (hmerged : h.PullRequest.Merged = true) :
    (¬ "/hooks".data <:+: r.URL.data →
      (hook unmarshal config r).lookups = [] ∧
      (hook unmarshal config r).spawned = [] ∧
      (hook unmarshal config r).rw.body
        = [{ Code := 200, Msg := "hook运行失败, 未配置脚本", Data := none }]) ∧
    ("/hooks".data <:+: r.URL.data →
      ∃ (pre : List Char) (key : String),
        r.URL.data = pre ++ '/' :: key.data ∧ '/' ∉ key.data ∧
        (hook unmarshal config r).lookups = [key]) := by
  constructor
  · intro hurl
    have hc : Contains r.URL "/hooks" = false := by
      rw [← Bool.not_eq_true, Contains_iff]
      exact hurl
    simp [hook, dispatch, hmethod, hdecode, hname, hmerged, hc, PullRequestHookName,
      noScriptResponse, NewResponseStruct]
  · intro hurl
    have hc : Contains r.URL "/hooks" = true := (Contains_iff _ _).mpr hurl
    obtain ⟨pre, k, hsplit, hlast⟩ := exists_last_split '/' r.URL.data (slash_mem_of_hooks _ hurl)
    have hk : sliceFrom r.URL (LastIndex r.URL "/" + 1) = ⟨k⟩ :=
      key_after_last_slash r.URL ⟨k⟩ pre hsplit hlast
    refine ⟨pre, ⟨k⟩, hsplit, hlast, ?_⟩
    by_cases ht : Trim (config.get ⟨k⟩) " " = ""
    · simp [hook, dispatch, hmethod, hdecode, hname, hmerged, hc, hk, ht, PullRequestHookName]
    · simp [hook, dispatch, hmethod, hdecode, hname, hmerged, hc, hk, ht, PullRequestHookName]

theorem hooks_substring_gate_witness :
    (post "/deploy?next=/hooks" [1]).Method ≠ "GET" ∧
    sampleUnmarshal (post "/deploy?next=/hooks" [1]).Body = Except.ok mergedHook ∧
    "/hooks".data <:+: (post "/deploy?next=/hooks" [1]).URL.data ∧
    (hook sampleUnmarshal [("site", "/opt/deploy.sh")]
      (post "/deploy?next=/hooks" [1])).lookups = ["hooks"] ∧
    (∃ (pre : List Char) (key : String),
      (post "/deploy?next=/hooks" [1]).URL.data = pre ++ '/' :: key.data ∧ '/' ∉ key.data ∧
      (hook sampleUnmarshal [("site", "/opt/deploy.sh")]
        (post "/deploy?next=/hooks" [1])).lookups = [key]) :=
  ⟨by decide, rfl, ⟨"/deploy?next=".data, [], rfl⟩, by decide,
    (hooks_substring_gate sampleUnmarshal [("site", "/opt/deploy.sh")]
      (post "/deploy?next=/hooks" [1]) mergedHook (by decide) rfl rfl rfl).2
      ⟨"/deploy?next=".data, [], rfl⟩⟩

/-! ## The goroutine and the mutex -/

theorem Task.step_ok (t t' : Task) (m m' : Bool) (os : OS)
    (h : t.step m os = some (t', m')) (hok : t.ok) : t'.ok := by
  rcases t with ⟨pc, sp, cmd, tr⟩
  cases pc
  all_goals simp only [Task.step] at h
  · split at h
    · exact absurd h (by simp)
    · simp only [Option.some.injEq, Prod.mk.injEq] at h
      obtain ⟨rfl, -⟩ := h
      simpa [Task.ok] using hok
  · simp only [Option.some.injEq, Prod.mk.injEq] at h
    obtain ⟨rfl, -⟩ := h
    simp [Task.ok]
  · split at h
    all_goals
      simp only [Option.some.injEq, Prod.mk.injEq] at h
      obtain ⟨rfl, -⟩ := h
      simp [Task.ok]
  · split at h
    all_goals
      simp only [Option.some.injEq, Prod.mk.injEq] at h
      obtain ⟨rfl, -⟩ := h
      simp [Task.ok]
  · split at h
    · simp only [Option.some.injEq, Prod.mk.injEq] at h
      obtain ⟨rfl, -⟩ := h
      simp [Task.ok]
    · rename_i st hst
      simp only [Option.some.injEq, Prod.mk.injEq] at h
      obtain ⟨rfl, -⟩ := h
      cases cmd with
      | none => simp at hst
      | some c =>
        simp at hst
        simp [Task.ok, Task.childRunning, hst]
  · simp only [Option.some.injEq, Prod.mk.injEq] at h
    obtain ⟨rfl, -⟩ := h
    simpa [Task.ok] using hok
  · exact absurd h (by simp)
  · exact absurd h (by simp)

/-- How a step changes the mutex: a goroutine outside the critical section can
only move by taking the free mutex, and one inside either stays inside and leaves
the mutex as it is, or leaves and frees it. -/
theorem Task.step_lock (t t' : Task) (m m' : Bool) (os : OS)
    (h : t.step m os = some (t', m')) :
    (t.holdsLock = false → m = false ∧ m' = true ∧ t'.holdsLock = true) ∧
    (t.holdsLock = true →
      (t'.holdsLock = true ∧ m' = m) ∨ (t'.holdsLock = false ∧ m' = false)) := by
  rcases t with ⟨pc, sp, cmd, tr⟩
  cases pc
  all_goals simp only [Task.step] at h
  · split at h
    · exact absurd h (by simp)
    · rename_i hm
      simp only [Option.some.injEq, Prod.mk.injEq] at h
      obtain ⟨rfl, rfl⟩ := h
      simp [Task.holdsLock, hm]
  · simp only [Option.some.injEq, Prod.mk.injEq] at h
    obtain ⟨rfl, rfl⟩ := h
    simp [Task.holdsLock]
  · split at h
    all_goals
      simp only [Option.some.injEq, Prod.mk.injEq] at h
      obtain ⟨rfl, rfl⟩ := h
      simp [Task.holdsLock]
  · split at h
    all_goals
      simp only [Option.some.injEq, Prod.mk.injEq] at h
      obtain ⟨rfl, rfl⟩ := h
      simp [Task.holdsLock]
  · split at h
    all_goals
      simp only [Option.some.injEq, Prod.mk.injEq] at h
      obtain ⟨rfl, rfl⟩ := h
      simp [Task.holdsLock]
  · simp only [Option.some.injEq, Prod.mk.injEq] at h
    obtain ⟨rfl, rfl⟩ := h
    simp [Task.holdsLock]
  · exact absurd h (by simp)
  · exact absurd h (by simp)

theorem Task.ok_childRunning (t : Task) (hok : t.ok) (hc : t.childRunning = true) :
    t.holdsLock = true := by
  rcases t with ⟨pc, sp, cmd, tr⟩
  cases pc <;> simp_all [Task.ok, Task.holdsLock, Task.childRunning]

theorem Task.ok_atStart (t : Task) (hok : t.ok) (hpc : t.pc = PC.atStart) :
    t.childRunning = false := by
  rcases t with ⟨pc, sp, cmd, tr⟩
  simp only at hpc
  subst hpc
  simp_all [Task.ok, Task.childRunning]

/-- The invariant holds when no goroutine has moved yet. -/
theorem World.Inv_init (shellPaths : List String) : (World.init shellPaths).Inv := by
  have hall : ∀ t ∈ (World.init shellPaths).tasks, t.pc = PC.atLock ∧ t.command = none := by
    intro t ht
    simp only [World.init, List.mem_map] at ht
    obtain ⟨p, -, rfl⟩ := ht
    exact ⟨rfl, rfl⟩
  have hfree : ∀ t ∈ (World.init shellPaths).tasks, t.holdsLock = false := by
    intro t ht
    simp [Task.holdsLock, (hall t ht).1]
  refine ⟨?_, ?_, fun _ => hfree⟩
  · intro t ht
    simp [Task.ok, (hall t ht).1, (hall t ht).2]
  · intro i j ti tj hi _ hli _
    have := hfree ti (List.getElem?_mem hi)
    rw [this] at hli
    exact absurd hli (by simp)

/-- Every step of every goroutine keeps the invariant. -/
theorem World.Inv_step (w : World) (i : Nat) (os : OS) (hinv : w.Inv) :
    (w.step i os).Inv := by
  unfold World.step
  split
  · exact hinv
  · rename_i t hti
    split
    · exact hinv
    · rename_i r hstep
      obtain ⟨t', m'⟩ := r
      have hilt : i < w.tasks.length := by
        rcases Nat.lt_or_ge i w.tasks.length with hlt | hge
        · exact hlt
        · rw [List.getElem?_eq_none hge] at hti
          exact absurd hti (by simp)
      have hget : ∀ k : Nat, (w.tasks.set i t')[k]? = if i = k then some t' else w.tasks[k]? := by
        intro k
        rw [List.getElem?_set]
        by_cases hik : i = k
        · subst hik
          simp [hilt]
        · simp [hik]
      have hlock := Task.step_lock t t' w.mutex m' os hstep
      have hokt : t.ok := hinv.ok t (List.getElem?_mem hti)
      have hokt' : t'.ok := Task.step_ok t t' w.mutex m' os hstep hokt
      -- goroutines other than `i` are untouched
      have hother : ∀ (k : Nat) (tk : Task), (w.tasks.set i t')[k]? = some tk → k ≠ i →
          w.tasks[k]? = some tk := by
        intro k tk hk hne
        rw [hget k] at hk
        simpa [Ne.symm hne] using hk
      have hself : ∀ tk : Task, (w.tasks.set i t')[i]? = some tk → tk = t' := by
        intro tk hk
        rw [hget i] at hk
        simpa using hk.symm
      refine ⟨?_, ?_, ?_⟩
      · intro tk hk
        obtain ⟨k, hk'⟩ := List.getElem?_of_mem hk
        by_cases hki : k = i
        · subst hki
          rw [hself tk hk']
          exact hokt'
        · exact hinv.ok tk (List.getElem?_mem (hother k tk hk' hki))
      · intro a b ta tb ha hb hla hlb
        simp only at ha hb
        by_cases hth : t.holdsLock = true
        · -- `i` held the lock before the step, so nobody else does
          have honly : ∀ (k : Nat) (tk : Task), (w.tasks.set i t')[k]? = some tk →
              tk.holdsLock = true → k = i := by
            intro k tk hk hlk
            by_contra hne
            exact hne (hinv.unique k i tk t (hother k tk hk hne) hti hlk hth)
          rw [honly a ta ha hla, honly b tb hb hlb]
        · -- `i` took the lock in this step: the mutex was free
          have hth' : t.holdsLock = false := by simpa using hth
          have hm : w.mutex = false := (hlock.1 hth').1
          have honly : ∀ (k : Nat) (tk : Task), (w.tasks.set i t')[k]? = some tk →
              tk.holdsLock = true → k = i := by
            intro k tk hk hlk
            by_contra hne
            have := hinv.free hm tk (List.getElem?_mem (hother k tk hk hne))
            rw [this] at hlk
            exact absurd hlk (by simp)
          rw [honly a ta ha hla, honly b tb hb hlb]
      · intro hm' tk hk
        simp only at hm' hk
        obtain ⟨k, hk'⟩ := List.getElem?_of_mem hk
        by_cases hth : t.holdsLock = true
        · rcases hlock.2 hth with ⟨-, hmm⟩ | ⟨hl', -⟩
          · -- the mutex stays held, which contradicts `hm'`
            have hm : w.mutex = false := by rw [← hmm]; exact hm'
            have := hinv.free hm t (List.getElem?_mem hti)
            rw [this] at hth
            exact absurd hth (by simp)
          · by_cases hki : k = i
            · subst hki
              rw [hself tk hk']
              exact hl'
            · by_contra hlk
              have hlk' : tk.holdsLock = true := by simpa using hlk
              exact hki (hinv.unique k i tk t (hother k tk hk' hki) hti hlk' hth)
        · have hth' : t.holdsLock = false := by simpa using hth
          have := (hlock.1 hth').2.1
          rw [this] at hm'
          exact absurd hm' (by simp)

/-- The invariant holds in every state reached by a schedule. -/
theorem World.Inv_run (sched : List (Nat × OS)) (w : World) (hinv : w.Inv) :
    (w.run sched).Inv := by
  induction sched generalizing w with
  | nil => exact hinv
  | cons s rest ih =>
    obtain ⟨i, os⟩ := s
    exact ih (w.step i os) (World.Inv_step w i os hinv)

/-- C2: in every state the server can reach from any number of freshly started
script goroutines, under any interleaving of their steps and any answers of the
operating system: no two goroutines have a subprocess running at the same time;
a goroutine whose subprocess is running is between `mutex.Lock()` and
`mutex.Unlock()`; at most one goroutine is between the two; and whenever a
goroutine is about to call `Start`, no subprocess of any goroutine is running. -/
theorem script_runs_never_overlap (shellPaths : List String) (sched : List (Nat × OS)) :
    (∀ (i j : Nat) (ti tj : Task),
      ((World.init shellPaths).run sched).tasks[i]? = some ti →
      ((World.init shellPaths).run sched).tasks[j]? = some tj →
      ti.childRunning = true → tj.childRunning = true → i = j) ∧
    (∀ (i : Nat) (t : Task),
      ((World.init shellPaths).run sched).tasks[i]? = some t →
      t.childRunning = true → t.holdsLock = true) ∧
    (∀ (i j : Nat) (ti tj : Task),
      ((World.init shellPaths).run sched).tasks[i]? = some ti →
      ((World.init shellPaths).run sched).tasks[j]? = some tj →
      ti.holdsLock = true → tj.holdsLock = true → i = j) ∧
    (∀ (i j : Nat) (ti tj : Task),
      ((World.init shellPaths).run sched).tasks[i]? = some ti →
      ((World.init shellPaths).run sched).tasks[j]? = some tj →
      ti.pc = PC.atStart → tj.childRunning = false) := by
  have hinv := World.Inv_run sched (World.init shellPaths) (World.Inv_init shellPaths)
  have hrun : ∀ (i : Nat) (t : Task),
      ((World.init shellPaths).run sched).tasks[i]? = some t →
      t.childRunning = true → t.holdsLock = true := by
    intro i t hi hc
    exact Task.ok_childRunning t (hinv.ok t (List.getElem?_mem hi)) hc
  refine ⟨?_, hrun, hinv.unique, ?_⟩
  · intro i j ti tj hi hj hci hcj
    exact hinv.unique i j ti tj hi hj (hrun i ti hi hci) (hrun j tj hj hcj)
  · intro i j ti tj hi hj hpc
    by_contra hcj
    have hcj' : tj.childRunning = true := by simpa using hcj
    have hli : ti.holdsLock = true := by simp [Task.holdsLock, hpc]
    have hij : i = j := hinv.unique i j ti tj hi hj hli (hrun j tj hj hcj')
    subst hij
    rw [hi] at hj
    have htt : ti = tj := by simpa using hj
    subst htt
    have := Task.ok_atStart ti (hinv.ok ti (List.getElem?_mem hi)) hpc
    rw [this] at hcj'
    exact absurd hcj' (by simp)

/-- C3 fails in the code at a failed launch: the goroutine logs the error of
`Start`, then panics at line 309 on the `nil` `command.Process`; it never reaches
`mutex.Unlock()`, the mutex stays locked, and the panic terminates the server. -/
theorem start_failure_panics :
    Event.log ⟨Level.Error,
        "Start execute shell failed fork/exec /bin/bash: no such file or directory"⟩
      ∈ (runScript osStartFails "/opt/deploy.sh").1.trace ∧
    (runScript osStartFails "/opt/deploy.sh").1.pc = PC.panicked ∧
    Event.unlock ∉ (runScript osStartFails "/opt/deploy.sh").1.trace ∧
    (runScript osStartFails "/opt/deploy.sh").2 = true ∧
    World.crashed ⟨(runScript osStartFails "/opt/deploy.sh").2,
      [(runScript osStartFails "/opt/deploy.sh").1]⟩ = true := by
  decide

/-- The goroutine run on its own always comes to an end within six steps: it
finishes or it panics. -/
theorem runScript_stops (os : OS) (shellPath : String) :
    (runScript os shellPath).1.pc = PC.done ∨ (runScript os shellPath).1.pc = PC.panicked := by
  rcases os with ⟨st, wt, cost⟩
  cases st <;> rcases wt with ⟨_ | e⟩ | e <;> simp [runScript, Task.exec, Task.step, Task.init,
    Command, Cmd.Start, Cmd.Wait]

/-- A script that starts and exits with a non-zero status is only logged: the
goroutine finishes and the mutex is free again. -/
theorem runScript_exit_error_only_logged (pid : Int) (e cost shellPath : String) :
    (runScript ⟨StartResult.started pid, WaitResult.exited (some e), cost⟩ shellPath).1.pc
      = PC.done ∧
    (runScript ⟨StartResult.started pid, WaitResult.exited (some e), cost⟩ shellPath).2
      = false ∧
    Event.log ⟨Level.Error, "Execute shell error: " ++ e⟩ ∈
      (runScript ⟨StartResult.started pid, WaitResult.exited (some e), cost⟩ shellPath).1.trace := by
  simp [runScript, Task.exec, Task.step, Task.init, Command, Cmd.Start, Cmd.Wait, errLog]

/-- Whatever the error of `Start` is, the goroutine panics with the mutex held. -/
theorem runScript_start_failure (e shellPath : String) (wt : WaitResult) (cost : String) :
    (runScript ⟨StartResult.failed e, wt, cost⟩ shellPath).1.pc = PC.panicked ∧
    (runScript ⟨StartResult.failed e, wt, cost⟩ shellPath).2 = true := by
  simp [runScript, Task.exec, Task.step, Task.init, Command, Cmd.Start]

/-- Two script goroutines: while the subprocess of the first is running the second
stays blocked in `mutex.Lock()`, and when each is given its six steps in turn both
run to their end. -/
theorem two_scripts_run_in_turn :
    (((World.init ["/opt/a.sh", "/opt/b.sh"]).run
        [(0, osOk), (1, osOk), (0, osOk), (1, osOk)]).tasks.map Task.childRunning
      = [true, false]) ∧
    (((World.init ["/opt/a.sh", "/opt/b.sh"]).run
        [(0, osOk), (1, osOk), (0, osOk), (1, osOk)]).tasks.map Task.pc
      = [PC.atPid, PC.atLock]) ∧
    (((World.init ["/opt/a.sh", "/opt/b.sh"]).run
        ((List.replicate 6 (0, osOk)) ++ (List.replicate 6 (1, osOk)))).tasks.map Task.pc
      = [PC.done, PC.done]) := by
  decide


/-! ## From the request to the subprocess -/

theorem starts_append (l₁ l₂ : List Event) : starts (l₁ ++ l₂) = starts l₁ ++ starts l₂ := by
  induction l₁ with
  | nil => rfl
  | cons e t ih => cases e <;> simp [starts, ih]

theorem starts_errLog (text : String) (err : Option String) : starts (errLog text err) = [] := by
  cases err <;> rfl

theorem Cmd.Start_path (c : Cmd) (r : StartResult) :
    (c.Start r).1.Path = c.Path ∧ (c.Start r).1.Args = c.Args := by
  cases r <;> simp [Cmd.Start]

theorem Cmd.Wait_path (c : Cmd) (r : WaitResult) :
    (c.Wait r).1.Path = c.Path ∧ (c.Wait r).1.Args = c.Args := by
  unfold Cmd.Wait
  split
  · exact ⟨rfl, rfl⟩
  · cases r <;> simp

theorem Task.step_shellPath (t t' : Task) (m m' : Bool) (os : OS)
    (h : t.step m os = some (t', m')) : t'.shellPath = t.shellPath := by
  rcases t with ⟨pc, sp, cmd, tr⟩
  cases pc
  all_goals simp only [Task.step] at h
  · split at h
    · exact absurd h (by simp)
    · simp only [Option.some.injEq, Prod.mk.injEq] at h
      obtain ⟨rfl, -⟩ := h
      rfl
  · simp only [Option.some.injEq, Prod.mk.injEq] at h
    obtain ⟨rfl, -⟩ := h
    rfl
  · split at h
    all_goals
      simp only [Option.some.injEq, Prod.mk.injEq] at h
      obtain ⟨rfl, -⟩ := h
      rfl
  · split at h
    all_goals
      simp only [Option.some.injEq, Prod.mk.injEq] at h
      obtain ⟨rfl, -⟩ := h
      rfl
  · split at h
    all_goals
      simp only [Option.some.injEq, Prod.mk.injEq] at h
      obtain ⟨rfl, -⟩ := h
      rfl
  · simp only [Option.some.injEq, Prod.mk.injEq] at h
    obtain ⟨rfl, -⟩ := h
    rfl
  · exact absurd h (by simp)
  · exact absurd h (by simp)

theorem Task.step_launchOk (t t' : Task) (m m' : Bool) (os : OS)
    (h : t.step m os = some (t', m')) (hok : t.launchOk) : t'.launchOk := by
  rcases t with ⟨pc, sp, cmd, tr⟩
  cases pc
  all_goals simp only [Task.step] at h
  · split at h
    · exact absurd h (by simp)
    · simp only [Option.some.injEq, Prod.mk.injEq] at h
      obtain ⟨rfl, -⟩ := h
      simp only [Task.launchOk] at hok ⊢
      simp [starts_append, hok.1, hok.2, starts]
  · simp only [Option.some.injEq, Prod.mk.injEq] at h
    obtain ⟨rfl, -⟩ := h
    simp only [Task.launchOk] at hok ⊢
    refine ⟨?_, _, rfl, ?_⟩
    · simp [starts_append, starts_errLog, hok.1, starts, Command]
    · simpa [Command] using Cmd.Start_path (Command "/bin/bash" [sp]) os.start
  · split at h
    all_goals
      simp only [Option.some.injEq, Prod.mk.injEq] at h
      obtain ⟨rfl, -⟩ := h
      simp only [Task.launchOk] at hok ⊢
      exact ⟨by simp [starts_append, hok.1, starts], hok.2⟩
  · split at h
    · simp only [Option.some.injEq, Prod.mk.injEq] at h
      obtain ⟨rfl, -⟩ := h
      simp only [Task.launchOk] at hok ⊢
      exact ⟨by simp [starts_append, hok.1, starts], hok.2⟩
    · rename_i x c
      simp only [Option.some.injEq, Prod.mk.injEq] at h
      obtain ⟨rfl, -⟩ := h
      simp only [Task.launchOk] at hok ⊢
      obtain ⟨hs, c0, hc0, hp, ha⟩ := hok
      have hcc : c = c0 := by simpa using hc0
      subst hcc
      refine ⟨by simp [starts_append, starts_errLog, hs, starts], _, rfl, ?_⟩
      have := Cmd.Wait_path c os.wait
      exact ⟨this.1.trans hp, this.2.trans ha⟩
  · split at h
    all_goals
      simp only [Option.some.injEq, Prod.mk.injEq] at h
      obtain ⟨rfl, -⟩ := h
      simp only [Task.launchOk] at hok ⊢
      exact ⟨by simp [starts_append, hok.1, starts], hok.2⟩
  · simp only [Option.some.injEq, Prod.mk.injEq] at h
    obtain ⟨rfl, -⟩ := h
    simp only [Task.launchOk] at hok ⊢
    exact ⟨by simp [starts_append, hok.1, starts], hok.2⟩
  · exact absurd h (by simp)
  · exact absurd h (by simp)

theorem World.step_all_launchOk (w : World) (i : Nat) (os : OS)
    (hall : ∀ t ∈ w.tasks, t.launchOk) : ∀ t ∈ (w.step i os).tasks, t.launchOk := by
  unfold World.step
  split
  · exact hall
  · rename_i t hti
    split
    · exact hall
    · rename_i r hstep
      obtain ⟨t', m'⟩ := r
      intro tk hk
      rcases List.mem_or_eq_of_mem_set hk with hmem | heq
      · exact hall tk hmem
      · rw [heq]
        exact Task.step_launchOk t t' w.mutex m' os hstep (hall t (List.getElem?_mem hti))

theorem World.step_same_shellPath (w : World) (i : Nat) (os : OS) (k : Nat) :
    ((w.step i os).tasks[k]?).map Task.shellPath = (w.tasks[k]?).map Task.shellPath := by
  unfold World.step
  split
  · rfl
  · rename_i t hti
    split
    · rfl
    · rename_i r hstep
      obtain ⟨t', m'⟩ := r
      simp only
      rw [List.getElem?_set]
      by_cases hik : i = k
      · subst hik
        have hilt : i < w.tasks.length := by
          rcases Nat.lt_or_ge i w.tasks.length with hlt | hge
          · exact hlt
          · rw [List.getElem?_eq_none hge] at hti
            exact absurd hti (by simp)
        simp [hilt, hti, Task.step_shellPath t t' w.mutex m' os hstep]
      · simp [hik]

theorem World.run_launchOk (sched : List (Nat × OS)) (w : World)
    (hall : ∀ t ∈ w.tasks, t.launchOk) : ∀ t ∈ (w.run sched).tasks, t.launchOk := by
  induction sched generalizing w with
  | nil => exact hall
  | cons s rest ih =>
    obtain ⟨i, os⟩ := s
    exact ih (w.step i os) (World.step_all_launchOk w i os hall)

theorem World.run_shellPath (sched : List (Nat × OS)) (w : World) (k : Nat) :
    ((w.run sched).tasks[k]?).map Task.shellPath = (w.tasks[k]?).map Task.shellPath := by
  induction sched generalizing w with
  | nil => rfl
  | cons s rest ih =>
    obtain ⟨i, os⟩ := s
    exact (ih (w.step i os)).trans (World.step_same_shellPath w i os k)

theorem World.init_launchOk (shellPaths : List String) :
    ∀ t ∈ (World.init shellPaths).tasks, t.launchOk := by
  intro t ht
  simp only [World.init, List.mem_map] at ht
  obtain ⟨p, -, rfl⟩ := ht
  exact ⟨rfl, rfl⟩

/-- The goroutine a request adds to the server is found, in every later state,
at its place in the list, with the script path it was started with, and with
what `Task.launchOk` says about its launches. -/
theorem World.spawned_task (earlier : List String) (p : String) (sched : List (Nat × OS)) :
    ∃ t : Task, ((World.init (earlier ++ [p])).run sched).tasks[earlier.length]? = some t ∧
      t.shellPath = p ∧ t.launchOk := by
  have h0 : ((World.init (earlier ++ [p])).tasks[earlier.length]?).map Task.shellPath
      = some p := by
    simp [World.init, Task.init]
  have h1 := (World.run_shellPath sched (World.init (earlier ++ [p])) earlier.length).trans h0
  obtain ⟨t, ht, hp⟩ := Option.map_eq_some'.mp h1
  exact ⟨t, ht, hp, World.run_launchOk sched _ (World.init_launchOk _) t (List.getElem?_mem ht)⟩

/-- A goroutine waiting at `mutex.Lock()` while the mutex is free: its next step
takes the mutex, and if the operating system then grants its `Start`, its
subprocess is running, with the command built at line 303. -/
theorem World.launch_steps (w : World) (n : Nat) (t : Task) (os₁ : OS) (pid : Int)
    (wt : WaitResult) (cost : String)
    (hget : w.tasks[n]? = some t) (hpc : t.pc = PC.atLock) (hm : w.mutex = false) :
    ((w.step n os₁).step n ⟨StartResult.started pid, wt, cost⟩).mutex = true ∧
    ((w.step n os₁).step n ⟨StartResult.started pid, wt, cost⟩).tasks[n]? =
      some { pc := PC.atPid
             shellPath := t.shellPath
             command := some { Path := "/bin/bash", Args := ["/bin/bash", t.shellPath],
                               Process := some ⟨pid⟩, ProcessState := none }
             trace := t.trace ++ [Event.lock] ++
               [Event.start "/bin/bash" ["/bin/bash", t.shellPath]] } := by
  have hlt : n < w.tasks.length := by
    rcases Nat.lt_or_ge n w.tasks.length with hlt | hge
    · exact hlt
    · rw [List.getElem?_eq_none hge] at hget
      exact absurd hget (by simp)
  rcases t with ⟨pc, sp, cmd, tr⟩
  simp only at hpc
  subst hpc
  have h1 : w.step n os₁ =
      { mutex := true
        tasks := w.tasks.set n { pc := PC.atStart, shellPath := sp, command := cmd,
                                 trace := tr ++ [Event.lock] } } := by
    simp [World.step, hget, Task.step, hm]
  rw [h1]
  simp [World.step, hlt, Task.step, Command, Cmd.Start, errLog]

theorem Task.launchOk_cases (t : Task) (h : t.launchOk) :
    (starts t.trace = [] ∧ t.command = none) ∨
    (starts t.trace = [("/bin/bash", ["/bin/bash", t.shellPath])] ∧
      ∃ c : Cmd, t.command = some c ∧ c.Path = "/bin/bash" ∧
        c.Args = ["/bin/bash", t.shellPath]) := by
  rcases t with ⟨pc, sp, cmd, tr⟩
  cases pc
  all_goals first
    | exact Or.inl h
    | exact Or.inr h

/-- A goroutine waiting at `mutex.Lock()` while the mutex is held cannot move. -/
theorem World.blocked_step (w : World) (n : Nat) (t : Task) (os : OS)
    (hget : w.tasks[n]? = some t) (hpc : t.pc = PC.atLock) (hm : w.mutex = true) :
    w.step n os = w := by
  rcases t with ⟨pc, sp, cmd, tr⟩
  simp only at hpc
  subst hpc
  simp [World.step, hget, Task.step, hm]

/-- A fresh server with one script goroutine, given six steps while the script
starts and exits: the goroutine is at its end after one call of `Start`, the exit
of its subprocess is collected and the mutex is free. -/
theorem World.run_alone (p : String) (pid : Int) (err : Option String) (cost : String) :
    ((World.init [p]).run
      (List.replicate 6
        (0, { start := StartResult.started pid, wait := WaitResult.exited err,
              cost := cost }))).mutex = false ∧
    ((World.init [p]).run
      (List.replicate 6
        (0, { start := StartResult.started pid, wait := WaitResult.exited err,
              cost := cost }))).tasks.map Task.pc = [PC.done] ∧
    ((World.init [p]).run
      (List.replicate 6
        (0, { start := StartResult.started pid, wait := WaitResult.exited err,
              cost := cost }))).tasks.map (fun t => starts t.trace)
      = [[("/bin/bash", ["/bin/bash", p])]] ∧
    ((World.init [p]).run
      (List.replicate 6
        (0, { start := StartResult.started pid, wait := WaitResult.exited err,
              cost := cost }))).tasks.map Task.command
      = [some { Path := "/bin/bash", Args := ["/bin/bash", p],
                Process := some { Pid := pid }, ProcessState := some { pid := pid } }] := by
  cases err <;>
    simp [World.init, World.run, World.step, Task.step, Task.init, List.replicate, Command,
      Cmd.Start, Cmd.Wait, errLog, starts, starts_append]

/-- C1: a non-GET request whose body decodes to a payload with `hook_name`
"merge_request_hooks" and `merged = true`, whose URL text contains "/hooks" and
whose key (the text after the last "/") maps in the registry to a non-blank
script path `p`, launches exactly one subprocess, "/bin/bash" with `p` as its
only argument, and is answered with the generic success payload.  In full:

* the handler starts exactly one goroutine, for `p`, and writes the generic
  success payload as the response body;
* in the server that runs this goroutine next to the goroutines of any earlier
  requests, under every schedule and all answers of the operating system, the
  goroutine has called `Start` at most once, only on "/bin/bash" with `p` as its
  only argument, and any command it holds is that one: never a second
  subprocess, never another program;
* in every such state, when the goroutine is still waiting for the mutex and the
  mutex is free, its next step takes the mutex and, the operating system granting
  the `Start` that follows, its subprocess is running: "/bin/bash" with `p` as
  its only argument, under the process id the system gave, after exactly one call
  of `Start`;
* while the mutex is held by another goroutine it waits and launches nothing;
* run on its own in a fresh server, with a script that starts and exits, the
  goroutine comes to its end after that one launch, with the exit collected and
  the mutex free again. -/
theorem merged_hook_launches_script
    (unmarshal : List UInt8 → Except String HookStruct) (config : Registry) (r : Request)
    (h : HookStruct) (pre : List Char) (key p : String)
    (hmethod : r.Method ≠ "GET")
    (hdecode : unmarshal r.Body = Except.ok h)
    (hname : h.HookName = "merge_request_hooks")
    (hmerged : h.PullRequest.Merged = true)
    (hurl : "/hooks".data <:+: r.URL.data)
    (hkey : r.URL.data = pre ++ '/' :: key.data) (hlast : '/' ∉ key.data)
    (hreg : config.lookup key = some p)
    (hblank : isBlank p = false) :
    (hook unmarshal config r).spawned = [p] ∧
    (hook unmarshal config r).rw.body = [{ Code := 200, Msg := "请求成功", Data := none }] ∧
    (∀ (earlier : List String) (sched : List (Nat × OS)),
      ∃ t : Task,
        ((World.init (earlier ++ (hook unmarshal config r).spawned)).run sched).tasks[
          earlier.length]? = some t ∧
        t.shellPath = p ∧
        (starts t.trace = [] ∨ starts t.trace = [("/bin/bash", ["/bin/bash", p])]) ∧
        (∀ c : Cmd, t.command = some c →
          c.Path = "/bin/bash" ∧ c.Args = ["/bin/bash", p] ∧
          starts t.trace = [("/bin/bash", ["/bin/bash", p])])) ∧
    (∀ (earlier : List String) (sched : List (Nat × OS)) (os₁ : OS) (pid : Int)
        (wt : WaitResult) (cost : String),
      ((World.init (earlier ++ (hook unmarshal config r).spawned)).run sched).mutex = false →
      (((World.init (earlier ++ (hook unmarshal config r).spawned)).run sched).tasks[
        earlier.length]?).map Task.pc = some PC.atLock →
      ∃ t : Task,
        ((((World.init (earlier ++ (hook unmarshal config r).spawned)).run sched).step
          earlier.length os₁).step earlier.length
            { start := StartResult.started pid, wait := wt, cost := cost }).tasks[
          earlier.length]? = some t ∧
        t.childRunning = true ∧
        t.command = some { Path := "/bin/bash", Args := ["/bin/bash", p],
                           Process := some { Pid := pid }, ProcessState := none } ∧
        starts t.trace = [("/bin/bash", ["/bin/bash", p])]) ∧
    (∀ (earlier : List String) (sched : List (Nat × OS)) (os : OS),
      ((World.init (earlier ++ (hook unmarshal config r).spawned)).run sched).mutex = true →
      (((World.init (earlier ++ (hook unmarshal config r).spawned)).run sched).tasks[
        earlier.length]?).map Task.pc = some PC.atLock →
      ((World.init (earlier ++ (hook unmarshal config r).spawned)).run sched).step
        earlier.length os
        = (World.init (earlier ++ (hook unmarshal config r).spawned)).run sched) ∧
    (∀ (pid : Int) (err : Option String) (cost : String),
      ((World.init (hook unmarshal config r).spawned).run
        (List.replicate 6
          (0, { start := StartResult.started pid, wait := WaitResult.exited err,
                cost := cost }))).mutex = false ∧
      ((World.init (hook unmarshal config r).spawned).run
        (List.replicate 6
          (0, { start := StartResult.started pid, wait := WaitResult.exited err,
                cost := cost }))).tasks.map Task.pc = [PC.done] ∧
      ((World.init (hook unmarshal config r).spawned).run
        (List.replicate 6
          (0, { start := StartResult.started pid, wait := WaitResult.exited err,
                cost := cost }))).tasks.map (fun t => starts t.trace)
        = [[("/bin/bash", ["/bin/bash", p])]] ∧
      ((World.init (hook unmarshal config r).spawned).run
        (List.replicate 6
          (0, { start := StartResult.started pid, wait := WaitResult.exited err,
                cost := cost }))).tasks.map Task.command
        = [some { Path := "/bin/bash", Args := ["/bin/bash", p],
                  Process := some { Pid := pid }, ProcessState := some { pid := pid } }]) := by
  have hc : Contains r.URL "/hooks" = true := (Contains_iff _ _).mpr hurl
  have hk : sliceFrom r.URL (LastIndex r.URL "/" + 1) = key :=
    key_after_last_slash r.URL key pre hkey hlast
  have ht : Trim p " " ≠ "" := fun e =>
    isBlank_false_not_spaces p hblank ((Trim_space_eq_empty_iff p).mp e)
  have hg : config.get key = p := Registry.get_of_lookup config key p hreg
  have hsp : (hook unmarshal config r).spawned = [p] := by
    simp [hook, dispatch, hmethod, hdecode, hname, hmerged, hc, hk, hg, ht, PullRequestHookName]
  have hbody : (hook unmarshal config r).rw.body
      = [{ Code := 200, Msg := "请求成功", Data := none }] := by
    simp [hook, dispatch, hmethod, hdecode, hname, hmerged, hc, hk, hg, ht, PullRequestHookName,
      successResponse, NewResponseStruct]
  rw [hsp]
  refine ⟨rfl, hbody, ?_, ?_, ?_, ?_⟩
  · intro earlier sched
    obtain ⟨t, hget, hpath, hok⟩ := World.spawned_task earlier p sched
    refine ⟨t, hget, hpath, ?_, ?_⟩
    · rcases Task.launchOk_cases t hok with ⟨hs, -⟩ | ⟨hs, -⟩
      · exact Or.inl hs
      · exact Or.inr (hpath ▸ hs)
    · intro c hcmd
      rcases Task.launchOk_cases t hok with ⟨-, hnone⟩ | ⟨hs, c', hc', hp', ha'⟩
      · rw [hnone] at hcmd
        exact absurd hcmd (by simp)
      · rw [hc'] at hcmd
        have hcc : c' = c := by simpa using hcmd
        subst hcc
        rw [hpath] at ha' hs
        exact ⟨hp', ha', hs⟩
  · intro earlier sched os₁ pid wt cost hm hpc
    obtain ⟨t, hget, hpath, hok⟩ := World.spawned_task earlier p sched
    rw [hget] at hpc
    have hpc' : t.pc = PC.atLock := by simpa using hpc
    have hstarts : starts t.trace = [] := by
      rcases t with ⟨pc, sp, cmd, tr⟩
      simp only at hpc'
      subst hpc'
      exact hok.1
    have hl := (World.launch_steps _ earlier.length t os₁ pid wt cost hget hpc' hm).2
    rw [hpath] at hl
    refine ⟨_, hl, rfl, rfl, ?_⟩
    simp [starts_append, hstarts, starts]
  · intro earlier sched os hm hpc
    obtain ⟨t, hget, -, -⟩ := World.spawned_task earlier p sched
    rw [hget] at hpc
    have hpc' : t.pc = PC.atLock := by simpa using hpc
    exact World.blocked_step _ earlier.length t os hget hpc' hm
  · intro pid err cost
    exact World.run_alone p pid err cost

theorem merged_hook_launches_script_witness :
    (post "/hooks/site" [1]).Method ≠ "GET" ∧
    sampleUnmarshal (post "/hooks/site" [1]).Body = Except.ok mergedHook ∧
    isBlank "/opt/deploy.sh" = false ∧
    (hook sampleUnmarshal [("site", "/opt/deploy.sh")] (post "/hooks/site" [1])).spawned
      = ["/opt/deploy.sh"] ∧
    (hook sampleUnmarshal [("site", "/opt/deploy.sh")] (post "/hooks/site" [1])).rw.body
      = [{ Code := 200, Msg := "请求成功", Data := none }] ∧
    (∃ t : Task,
      ((((World.init (["/opt/earlier.sh"] ++
            (hook sampleUnmarshal [("site", "/opt/deploy.sh")]
              (post "/hooks/site" [1])).spawned)).run
          (List.replicate 6 (0, osOk))).step
            ["/opt/earlier.sh"].length osOk).step ["/opt/earlier.sh"].length
              { start := StartResult.started 777, wait := WaitResult.exited none,
                cost := "2s" }).tasks[["/opt/earlier.sh"].length]? = some t ∧
      t.childRunning = true ∧
      t.command = some { Path := "/bin/bash", Args := ["/bin/bash", "/opt/deploy.sh"],
                         Process := some { Pid := 777 }, ProcessState := none } ∧
      starts t.trace = [("/bin/bash", ["/bin/bash", "/opt/deploy.sh"])]) :=
  have w := merged_hook_launches_script sampleUnmarshal [("site", "/opt/deploy.sh")]
    (post "/hooks/site" [1]) mergedHook "/hooks".data "site" "/opt/deploy.sh"
    (by decide) rfl rfl rfl ⟨[], "/site".data, rfl⟩ rfl (by decide) rfl (by decide)
  ⟨by decide, rfl, by decide, w.1, w.2.1,
    w.2.2.2.1 ["/opt/earlier.sh"] (List.replicate 6 (0, osOk)) osOk 777
      (WaitResult.exited none) "2s" (by decide) (by decide)⟩

end Webhooks
